import Mathlib

/-!
Verification of the cstruct binary pack/unpack library (src/src/cstruct/cstruct.c).

The C code is shallowly embedded: byte buffers are lists of natural numbers
(each byte < 256), machine integers are natural-number bit patterns of the
appropriate width, and the variadic argument list of cstruct_pack_v /
cstruct_unpack_v is an explicit list with one entry per non-padding token.
Floating-point values are handled exactly as in the C code: as raw bit
patterns that are copied byte-for-byte (float32/float64) or converted at the
bit level (float16 via cstruct_float_to_half / cstruct_half_to_float).
The host-endianness dispatch of cstruct_store_le / cstruct_store_be is
abstracted into the value-level byte images the functions produce on every
host: the little-endian byte decomposition of the value, or its reverse.
-/

namespace CStruct

/-- Endianness selector, from the cstruct_endian_t enum. -/
inductive cstruct_endian where
  | little
  | big
deriving DecidableEq

/-- Data-type selector, from the cstruct_type_t enum in cstruct.h. -/
inductive cstruct_type where
  | int8
  | uint8
  | int16
  | uint16
  | int32
  | uint32
  | int64
  | uint64
  | int128
  | uint128
  | float16
  | float32
  | float64
  | string
  | padding
deriving DecidableEq

/-- One parsed format token, from cstruct_token_t: type, the endianness in
effect when the token was parsed, element size in bytes, repeat count. -/
structure cstruct_token where
  type : cstruct_type
  endian : cstruct_endian
  size : Nat
  count : Nat
deriving DecidableEq

/-- SIZE_MAX of the embedding; the C code is compiled with a 64-bit size_t. -/
def CSTRUCT_SIZE_MAX : Nat := 2 ^ 64 - 1

/-- Threshold for the decimal-overflow guard: SIZE_MAX / 10 (cstruct.c line 33). -/
def CSTRUCT_DIV10_THRESHOLD : Nat := CSTRUCT_SIZE_MAX / 10

/-- Largest admissible final digit: SIZE_MAX % 10 (cstruct.c line 35). -/
def CSTRUCT_DIV10_MAX_LAST_DIGIT : Nat := CSTRUCT_SIZE_MAX % 10

/-- The digit-accumulation loop of parse_token (cstruct.c lines 262-271):
while the next character is a decimal digit, accumulate count = count * 10 +
digit, rejecting (none) if the accumulation would exceed SIZE_MAX. -/
def parse_count : List Char → Nat → Option (Nat × List Char)
  | c :: rest, count =>
    if c.isDigit then
      let digit := c.toNat - 48
      if count > CSTRUCT_DIV10_THRESHOLD ∨
          (count = CSTRUCT_DIV10_THRESHOLD ∧ digit > CSTRUCT_DIV10_MAX_LAST_DIGIT) then
        none
      else
        parse_count rest (count * 10 + digit)
    else
      some (count, c :: rest)
  | [], count => some (count, [])

/-- The endianness-specifier loop at the top of parse_token (cstruct.c lines
251-253): consume any run of markers, updating the running endianness. -/
def skip_endian : List Char → cstruct_endian → List Char × cstruct_endian
  | '<' :: p, _ => skip_endian p .little
  | '>' :: p, _ => skip_endian p .big
  | l, e => (l, e)

/-- The type-specifier switch of parse_token (cstruct.c lines 277-296).
For s and x the accumulated count becomes the byte size and the repeat count
is forced to 1; any unrecognized character is a parse error. -/
def close_token (t : Char) (rest : List Char) (e : cstruct_endian) (count : Nat) :
    Option (cstruct_token × List Char) :=
  match t with
  | 'b' => some ({ type := .int8, endian := e, size := 1, count := count }, rest)
  | 'B' => some ({ type := .uint8, endian := e, size := 1, count := count }, rest)
  | 'h' => some ({ type := .int16, endian := e, size := 2, count := count }, rest)
  | 'H' => some ({ type := .uint16, endian := e, size := 2, count := count }, rest)
  | 'i' => some ({ type := .int32, endian := e, size := 4, count := count }, rest)
  | 'I' => some ({ type := .uint32, endian := e, size := 4, count := count }, rest)
  | 'q' => some ({ type := .int64, endian := e, size := 8, count := count }, rest)
  | 'Q' => some ({ type := .uint64, endian := e, size := 8, count := count }, rest)
  | 't' => some ({ type := .int128, endian := e, size := 16, count := count }, rest)
  | 'T' => some ({ type := .uint128, endian := e, size := 16, count := count }, rest)
  | 'e' => some ({ type := .float16, endian := e, size := 2, count := count }, rest)
  | 'f' => some ({ type := .float32, endian := e, size := 4, count := count }, rest)
  | 'd' => some ({ type := .float64, endian := e, size := 8, count := count }, rest)
  | 's' => some ({ type := .string, endian := e, size := count, count := 1 }, rest)
  | 'x' => some ({ type := .padding, endian := e, size := count, count := 1 }, rest)
  | _ => none

/-- parse_token (cstruct.c lines 247-301): skip endianness markers, parse an
optional decimal repeat count (an all-zero count normalizes to 1), then close
the token on a type letter.  Returns none on a malformed format string and on
end of string, including end of string reached right after markers or digits.
The updated running endianness is recorded in the token itself (tok.endian):
the C code never changes current_endian after initializing tok. -/
def parse_token (fmt : List Char) (e : cstruct_endian) : Option (cstruct_token × List Char) :=
  match skip_endian fmt e with
  | ([], _) => none
  | (c :: p, e2) =>
    if c.isDigit then
      match parse_count (c :: p) 0 with
      | none => none
      | some (count0, rest) =>
        match rest with
        | [] => none
        | t :: rest2 => close_token t rest2 e2 (if count0 = 0 then 1 else count0)
    else
      close_token c p e2 1

/-- cstruct_store_le (cstruct.c lines 65-71): the bytes a value occupies in
little-endian order.  On a little-endian host this is a forward copy of the
value's memory image, on a big-endian host a reversing copy; both produce the
little-endian byte decomposition of the value modelled here. -/
def cstruct_store_le (v : Nat) (size : Nat) : List Nat :=
  (List.range size).map (fun i => v / 256 ^ i % 256)

/-- cstruct_store_be (cstruct.c lines 79-85): big-endian byte image, the
reverse of the little-endian image. -/
def cstruct_store_be (v : Nat) (size : Nat) : List Nat :=
  (cstruct_store_le v size).reverse

/-- cstruct_load_le (cstruct.c lines 115-121): reassemble a value from its
little-endian byte image. -/
def cstruct_load_le (bytes : List Nat) : Nat :=
  bytes.foldr (fun b acc => acc * 256 + b) 0

/-- cstruct_load_be (cstruct.c lines 129-135): reassemble from big-endian. -/
def cstruct_load_be (bytes : List Nat) : Nat :=
  cstruct_load_le bytes.reverse

/-- cstruct_float_to_half (cstruct.c lines 143-186), on the 32-bit pattern of
the input float.  expo is computed in signed arithmetic, as in the C code
(the uint32 wraparound of the subtraction, converted to int32_t, yields the
signed value field - 112). -/
def cstruct_float_to_half (bits : Nat) : Nat :=
  let sign := (bits >>> 16) &&& 0x8000
  let expo : Int := (((bits >>> 23) &&& 0xFF : Nat) : Int) - 127 + 15
  let frac := (bits >>> 13) &&& 0x3FF
  if expo ≤ 0 then
    if expo < -10 then
      sign
    else
      let frac2 := (bits &&& 0x7FFFFF) ||| 0x800000
      let frac3 := frac2 >>> (1 - expo).toNat
      let frac4 := (frac3 + 0x1000) >>> 13
      sign ||| frac4
  else if 0x1F ≤ expo then
    if bits &&& 0x7FFFFF ≠ 0 then
      sign ||| 0x7C00 ||| ((bits >>> 13) &&& 0x3FF)
    else
      sign ||| 0x7C00
  else
    sign ||| (expo.toNat <<< 10) ||| frac

/-- The subnormal normalization loop of cstruct_half_to_float (cstruct.c
lines 208-211): shift frac left until bit 10 appears, decrementing expo with
uint32 wraparound.  The C loop runs at most 10 times because frac starts
nonzero and below 0x400; the fuel (32 in the caller) is never exhausted on
those inputs and only makes the recursion structurally terminating. -/
def cstruct_normalize_subnormal : Nat → Nat → Nat → Nat × Nat
  | 0, frac, expo => (frac, expo)
  | fuel + 1, frac, expo =>
    if frac &&& 0x400 = 0 then
      cstruct_normalize_subnormal fuel ((frac <<< 1) % 2 ^ 32) ((expo + 0xFFFFFFFF) % 2 ^ 32)
    else
      (frac, expo)

/-- cstruct_half_to_float (cstruct.c lines 194-238), producing the 32-bit
pattern of the resulting float.  All intermediate arithmetic is uint32, hence
the mod 2^32 at the points where the C expressions can wrap. -/
def cstruct_half_to_float (h : Nat) : Nat :=
  let sign := (h >>> 15) &&& 0x1
  let expo := (h >>> 10) &&& 0x1F
  let frac := h &&& 0x3FF
  if expo = 0 then
    if frac = 0 then
      sign <<< 31
    else
      let fe := cstruct_normalize_subnormal 32 frac expo
      let expo2 := (fe.2 + 1) % 2 ^ 32
      let frac2 := fe.1 &&& 0x3FF
      ((sign <<< 31) ||| (((expo2 + 112) <<< 23) % 2 ^ 32) ||| (frac2 <<< 13)) % 2 ^ 32
  else if expo = 0x1F then
    (sign <<< 31) ||| (0xFF <<< 23) ||| (frac <<< 13)
  else
    (sign <<< 31) ||| ((expo + 112) <<< 23) ||| (frac <<< 13)

/-- One argument slot of the variadic list of cstruct_pack_v: a scalar value
(its bit pattern; for the 128-bit types this is the 16-byte pattern the
passed pointer refers to), a pointer to an array of repeat_count element
patterns, or a pointer to a NUL-terminated C string (the bytes before the
terminator). -/
inductive cstruct_arg where
  | val (v : Nat)
  | arr (vs : List Nat)
  | str (s : List Nat)
deriving DecidableEq

/-- One destination slot written by cstruct_unpack_v: the value stored
through a scalar pointer, the element values stored through an array
pointer, or the bytes (including the appended NUL) stored through a string
pointer. -/
inductive cstruct_out where
  | val (v : Nat)
  | arr (vs : List Nat)
  | str (s : List Nat)
deriving DecidableEq

/-- Endianness-dispatched store, as selected by tok.endian in the engine. -/
def cstruct_store : cstruct_endian → Nat → Nat → List Nat
  | .little, v, size => cstruct_store_le v size
  | .big, v, size => cstruct_store_be v size

/-- Endianness-dispatched load. -/
def cstruct_load : cstruct_endian → List Nat → Nat
  | .little, bytes => cstruct_load_le bytes
  | .big, bytes => cstruct_load_be bytes

/-- The bytes one element of a numeric token occupies in the buffer: float16
elements are first converted by cstruct_float_to_half and stored as 2 bytes
(cstruct_pack_float16_le/be); every other numeric type is stored raw at its
element size (the C narrowing of an oversized value is the truncation to
tok.size bytes that cstruct_store performs). -/
def cstruct_encode_elem (tok : cstruct_token) (v : Nat) : List Nat :=
  match tok.type with
  | .float16 => cstruct_store tok.endian (cstruct_float_to_half v) 2
  | _ => cstruct_store tok.endian v tok.size

/-- The value one element decodes to: float16 elements are loaded as 2 bytes
and converted by cstruct_half_to_float (cstruct_unpack_float16_le/be); every
other numeric type is the loaded pattern. -/
def cstruct_decode_elem (tok : cstruct_token) (bytes : List Nat) : Nat :=
  match tok.type with
  | .float16 => cstruct_half_to_float (cstruct_load tok.endian bytes)
  | _ => cstruct_load tok.endian bytes

/-- Overwrite the bytes of buf starting at offset off with bs (the engine
only calls this with off + bs.length within the buffer, which the bounds
check has already established). -/
def write_bytes (buf : List Nat) (off : Nat) (bs : List Nat) : List Nat :=
  buf.take off ++ bs ++ buf.drop (off + bs.length)

/-- cstruct_pack_string (cstruct.c lines 899-913): copy min(strlen(value),
size) bytes of the source string, zero-fill the remainder up to size. -/
def cstruct_pack_string (value : List Nat) (size : Nat) : List Nat :=
  let len := value.length
  let copy_len := if len < size then len else size
  value.take copy_len ++ List.replicate (size - copy_len) 0

/-- cstruct_unpack_string (cstruct.c lines 922-933): copy size bytes from the
source and append a NUL terminator at offset size of the destination. -/
def cstruct_unpack_string (src : List Nat) (size : Nat) : List Nat :=
  src.take size ++ [0]

/-- The per-token body of the switch in cstruct_pack_v (cstruct.c lines
967-1262): padding advances the cursor without touching the buffer; a string
token consumes one string argument; a numeric token consumes one value
argument (repeat count 1) or one array argument (repeat count > 1) and
stores its elements consecutively.  none models a violated caller contract
(argument list shorter than the format string or of the wrong shape), which
in C is undefined behavior of va_arg. -/
def cstruct_pack_step (tok : cstruct_token) (args : List cstruct_arg) (buf : List Nat)
    (off : Nat) : Option (List cstruct_arg × List Nat × Nat) :=
  match tok.type, args with
  | .padding, _ => some (args, buf, off + tok.size * tok.count)
  | .string, .str s :: args2 =>
    some (args2, write_bytes buf off (cstruct_pack_string s tok.size), off + tok.size)
  | .string, _ => none
  | _, .val v :: args2 =>
    if tok.count > 1 then none
    else some (args2, write_bytes buf off (cstruct_encode_elem tok v), off + tok.size)
  | _, .arr vs :: args2 =>
    if tok.count > 1 then
      if tok.count ≤ vs.length then
        some (args2,
          write_bytes buf off (((vs.take tok.count).map (cstruct_encode_elem tok)).flatten),
          off + tok.size * tok.count)
      else none
    else none
  | _, _ => none

/-- The token loop of cstruct_pack_v (cstruct.c lines 947-1266): while the
format string is not exhausted, parse one token (failing the whole call on a
parse error), reject if the remaining capacity is below the size_t product
tok.size * tok.count (a 64-bit multiplication, so the product wraps mod 2^64
exactly as the C expression at line 963 does; a repeat count as large as
2^63 on a 2-byte type wraps the product to 0 and slips past the check), then
dispatch.  On failure the buffer as mutated so far is returned alongside the
none result, mirroring that the C code does not roll back partial writes.
The fuel argument only forces termination; each successful parse consumes at
least one character, so fuel = fmt.length (as passed by cstruct_pack_v) is
never exhausted. -/
def cstruct_pack_go : Nat → List Char → cstruct_endian → List cstruct_arg → List Nat → Nat →
    Option Nat × List Nat
  | _, [], _, _, buf, off => (some off, buf)
  | 0, _ :: _, _, _, buf, _ => (none, buf)
  | fuel + 1, c :: p, e, args, buf, off =>
    match parse_token (c :: p) e with
    | none => (none, buf)
    | some (tok, rest) =>
      if buf.length - off < (tok.size * tok.count) % 2 ^ 64 then (none, buf)
      else
        match cstruct_pack_step tok args buf off with
        | none => (none, buf)
        | some (args2, buf2, off2) => cstruct_pack_go fuel rest tok.endian args2 buf2 off2

/-- cstruct_pack_v: run the token loop from offset 0 with the running
endianness initialized to little-endian.  The destination capacity is the
length of buf; the returned offset is the distance of the returned end
pointer from the destination start. -/
def cstruct_pack_v (buf : List Nat) (fmt : List Char) (args : List cstruct_arg) :
    Option Nat × List Nat :=
  cstruct_pack_go fmt.length fmt .little args buf 0

/-- The per-token body of the switch in cstruct_unpack_v (cstruct.c lines
1309-1603): what gets written through the caller's destination pointers, and
the advanced cursor. -/
def cstruct_unpack_read (tok : cstruct_token) (buf : List Nat) (off : Nat) :
    List cstruct_out × Nat :=
  match tok.type with
  | .padding => ([], off + tok.size * tok.count)
  | .string => ([.str (cstruct_unpack_string (buf.drop off) tok.size)], off + tok.size)
  | _ =>
    if tok.count > 1 then
      ([.arr ((List.range tok.count).map (fun i =>
          cstruct_decode_elem tok ((buf.drop (off + i * tok.size)).take tok.size)))],
        off + tok.size * tok.count)
    else
      ([.val (cstruct_decode_elem tok ((buf.drop off).take tok.size))], off + tok.size)

/-- The token loop of cstruct_unpack_v (cstruct.c lines 1289-1608), returning
the final source offset and the ordered list of destination slots written.
As in cstruct_pack_go, the bounds check at line 1305 multiplies two size_t
values, so the product is reduced mod 2^64. -/
def cstruct_unpack_go : Nat → List Char → cstruct_endian → List Nat → Nat →
    Option (Nat × List cstruct_out)
  | _, [], _, _, off => some (off, [])
  | 0, _ :: _, _, _, _ => none
  | fuel + 1, c :: p, e, buf, off =>
    match parse_token (c :: p) e with
    | none => none
    | some (tok, rest) =>
      if buf.length - off < (tok.size * tok.count) % 2 ^ 64 then none
      else
        match cstruct_unpack_go fuel rest tok.endian buf (cstruct_unpack_read tok buf off).2 with
        | none => none
        | some (offEnd, more) => some (offEnd, (cstruct_unpack_read tok buf off).1 ++ more)

/-- cstruct_unpack_v: run the unpack loop from offset 0, little-endian. -/
def cstruct_unpack_v (buf : List Nat) (fmt : List Char) : Option (Nat × List cstruct_out) :=
  cstruct_unpack_go fmt.length fmt .little buf 0

/-- The loop of cstruct_get_ptr (cstruct.c lines 1643-1674): parse tokens,
fail when the remaining buffer is below tok.size (the repeat count is not
consulted), return the current offset once the zero-based token counter
reaches the requested index, otherwise advance by tok.size (again without the
repeat count) and continue. -/
def cstruct_get_ptr_go : Nat → List Char → cstruct_endian → Nat → Nat → Nat → Nat → Option Nat
  | _, [], _, _, _, _, _ => none
  | 0, _ :: _, _, _, _, _, _ => none
  | fuel + 1, c :: p, e, buflen, off, cur, index =>
    match parse_token (c :: p) e with
    | none => none
    | some (tok, rest) =>
      if buflen - off < tok.size then none
      else if cur = index then some off
      else cstruct_get_ptr_go fuel rest tok.endian buflen (off + tok.size) (cur + 1) index

/-- cstruct_get_ptr: run the locator loop from offset 0, counter 0,
little-endian.  The result is the byte offset of the located field. -/
def cstruct_get_ptr (buflen : Nat) (fmt : List Char) (index : Nat) : Option Nat :=
  cstruct_get_ptr_go fmt.length fmt .little buflen 0 0 index

/-- Total byte footprint of a format string: the sum of tok.size * tok.count
over its tokens, none if the format string is malformed. -/
def cstruct_fmt_bytes : Nat → List Char → cstruct_endian → Option Nat
  | _, [], _ => some 0
  | 0, _ :: _, _ => none
  | fuel + 1, c :: p, e =>
    match parse_token (c :: p) e with
    | none => none
    | some (tok, rest) =>
      match cstruct_fmt_bytes fuel rest tok.endian with
      | none => none
      | some n => some (tok.size * tok.count + n)

/-- The token sequence of a format string, in order. -/
def cstruct_token_list : Nat → List Char → cstruct_endian → Option (List cstruct_token)
  | _, [], _ => some []
  | 0, _ :: _, _ => none
  | fuel + 1, c :: p, e =>
    match parse_token (c :: p) e with
    | none => none
    | some (tok, rest) =>
      match cstruct_token_list fuel rest tok.endian with
      | none => none
      | some toks => some (tok :: toks)

/-- Byte offset at which the j-th token of the locator's walk starts: the sum
of the element sizes (not size * count) of the preceding tokens, matching the
cursor advance of cstruct_get_ptr. -/
def cstruct_locator_offset (toks : List cstruct_token) (j : Nat) : Nat :=
  ((toks.take j).map cstruct_token.size).sum

/-- Pack-then-unpack round trip through a single-token format at a 16-byte
buffer: true when both calls succeed, consume the same number of bytes, and
the unpacked value equals the packed one bit-for-bit. -/
def cstruct_roundtrip (fmt : List Char) (v : Nat) : Bool :=
  match cstruct_pack_v (List.replicate 16 0) fmt [.val v] with
  | (some off, buf) =>
    match cstruct_unpack_v buf fmt with
    | some (off2, [.val w]) => off == off2 && w == v
    | _ => false
  | _ => false

/-- Boundary bit patterns exercised by the round-trip claim, per type letter:
0, min, max, and -1 (0xFF..F) for the signed integer widths; 0 and the
all-ones pattern for the unsigned widths; and plus/minus zero, plus/minus
infinity, a NaN and a subnormal for the float widths (for float16, float32
patterns that are exactly representable in binary16). -/
def c1_values : List (Char × List Nat) :=
  [ ('b', [0, 0x80, 0x7F, 0xFF]),
    ('B', [0, 0xFF]),
    ('h', [0, 0x8000, 0x7FFF, 0xFFFF]),
    ('H', [0, 0xFFFF]),
    ('i', [0, 0x80000000, 0x7FFFFFFF, 0xFFFFFFFF]),
    ('I', [0, 0xFFFFFFFF]),
    ('q', [0, 0x8000000000000000, 0x7FFFFFFFFFFFFFFF, 0xFFFFFFFFFFFFFFFF]),
    ('Q', [0, 0xFFFFFFFFFFFFFFFF]),
    ('t', [0, 2 ^ 127, 2 ^ 127 - 1, 2 ^ 128 - 1]),
    ('T', [0, 2 ^ 128 - 1]),
    ('e', [0, 0x80000000, 0x7F800000, 0xFF800000, 0x7FC00000, 0x33800000]),
    ('f', [0, 0x80000000, 0x7F800000, 0xFF800000, 0x7FC00001, 0x00000001]),
    ('d', [0, 0x8000000000000000, 0x7FF0000000000000, 0xFFF0000000000000,
           0x7FF8000000000001, 0x0000000000000001]) ]

/-- Every boundary pattern of c1_values under both explicit endianness
markers: the format is a marker followed by the single type letter. -/
def c1_cases : List (List Char × Nat) :=
  c1_values.flatMap (fun tv => tv.2.flatMap (fun v => [(['<', tv.1], v), (['>', tv.1], v)]))

/-- C1: for every supported scalar type and both endiannesses, packing a
value with a single-token format and unpacking the resulting bytes with the
same format reproduces the value bit-for-bit, at the boundary values (0,
min, max, -1 where signed) and at NaN/Inf/subnormal patterns for the float
types (for float16, at patterns exactly representable in binary16). -/
theorem c1_roundtrip_boundary :
    (c1_cases.all fun fv => cstruct_roundtrip fv.1 fv.2) = true := by
  decide

/-- C2: packing 0x12345678 with format "<I" writes the bytes 78 56 34 12 and
with format ">I" writes 12 34 56 78; the running endianness applies per
token, so packing (0x1234, 0x5678) with format "<H>H" writes 34 12 56 78. -/
theorem c2_endianness_bytes :
    cstruct_pack_v (List.replicate 4 0) ['<', 'I'] [.val 0x12345678] =
      (some 4, [0x78, 0x56, 0x34, 0x12]) ∧
    cstruct_pack_v (List.replicate 4 0) ['>', 'I'] [.val 0x12345678] =
      (some 4, [0x12, 0x34, 0x56, 0x78]) ∧
    cstruct_pack_v (List.replicate 4 0) ['<', 'H', '>', 'H'] [.val 0x1234, .val 0x5678] =
      (some 4, [0x34, 0x12, 0x56, 0x78]) := by
  refine ⟨rfl, rfl, rfl⟩

/-- C9: for the empty format string, cstruct_pack succeeds and returns the
destination start (offset 0) without writing any byte, and cstruct_unpack
succeeds and returns the source start without writing any destination slot,
for every buffer (hence every capacity, including zero) and argument list. -/
theorem c9_empty_format :
    (∀ (buf : List Nat) (args : List cstruct_arg),
        cstruct_pack_v buf [] args = (some 0, buf)) ∧
    ∀ buf : List Nat, cstruct_unpack_v buf [] = some (0, []) := by
  exact ⟨fun _ _ => rfl, fun _ => rfl⟩

/-- Closing a token returns the remainder it was given, and produces a token
with positive size and count whose count is forced to 1 for string and
padding tokens (and equals the accumulated count otherwise). -/
theorem close_token_spec {t : Char} {rest : List Char} {e : cstruct_endian} {cnt : Nat}
    {tok : cstruct_token} {r : List Char} (hcnt : 1 ≤ cnt)
    (h : close_token t rest e cnt = some (tok, r)) :
    r = rest ∧ 1 ≤ tok.size ∧ 1 ≤ tok.count ∧
      ((tok.type = .string ∨ tok.type = .padding) → tok.count = 1) := by
  unfold close_token at h
  split at h <;> simp_all <;> obtain ⟨rfl, rfl⟩ := h <;> simp_all

/-- parse_token never succeeds on the empty format string. -/
theorem parse_token_nil (e : cstruct_endian) : parse_token [] e = none := rfl

/-- A leading little-endian marker is consumed without emitting a token. -/
theorem parse_token_lt_marker (p : List Char) (e : cstruct_endian) :
    parse_token ('<' :: p) e = parse_token p .little := rfl

/-- A leading big-endian marker is consumed without emitting a token. -/
theorem parse_token_gt_marker (p : List Char) (e : cstruct_endian) :
    parse_token ('>' :: p) e = parse_token p .big := rfl

/-- Every token emitted by parse_token has positive size and count, and
string and padding tokens always carry repeat count 1 (their digit run is
folded into the size instead). -/
theorem parse_token_spec {fmt : List Char} {e : cstruct_endian} {tok : cstruct_token}
    {rest : List Char} (h : parse_token fmt e = some (tok, rest)) :
    1 ≤ tok.size ∧ 1 ≤ tok.count ∧
      ((tok.type = .string ∨ tok.type = .padding) → tok.count = 1) := by
  unfold parse_token at h
  rcases hs : skip_endian fmt e with ⟨l, e2⟩
  rw [hs] at h
  match l with
  | [] => exact absurd h (by simp)
  | c :: p =>
    replace h :
        (if c.isDigit then
          match parse_count (c :: p) 0 with
          | none => none
          | some (count0, rest1) =>
            match rest1 with
            | [] => none
            | t :: rest2 => close_token t rest2 e2 (if count0 = 0 then 1 else count0)
        else close_token c p e2 1) = some (tok, rest) := h
    by_cases hd : c.isDigit
    · rw [if_pos hd] at h
      rcases hpc : parse_count (c :: p) 0 with _ | ⟨count0, rest1⟩ <;> rw [hpc] at h
      · exact absurd h (by simp)
      · match rest1 with
        | [] => exact absurd h (by simp)
        | t :: rest2 =>
          have hcnt : 1 ≤ if count0 = 0 then 1 else count0 := by split <;> omega
          exact (close_token_spec hcnt h).2
    · rw [if_neg hd] at h
      exact (close_token_spec (le_refl 1) h).2

/-- A format string consisting only of endianness markers parses to the
error sentinel: parse_token consumes the markers and then runs off the end
of the string, which it reports as a parse error. -/
theorem parse_token_markers :
    ∀ (fmt : List Char) (e : cstruct_endian), (∀ c ∈ fmt, c = '<' ∨ c = '>') →
      parse_token fmt e = none := by
  intro fmt
  induction fmt with
  | nil => intro e _; rfl
  | cons c p ih =>
    intro e hall
    rcases hall c (List.mem_cons_self c p) with rfl | rfl
    · rw [parse_token_lt_marker]
      exact ih _ (fun d hd => hall d (List.mem_cons_of_mem _ hd))
    · rw [parse_token_gt_marker]
      exact ih _ (fun d hd => hall d (List.mem_cons_of_mem _ hd))

/-- Unfolding equation for cstruct_pack_go once a token has been parsed. -/
theorem cstruct_pack_go_cons {c : Char} {p : List Char} {e : cstruct_endian}
    {tok : cstruct_token} {rest : List Char} (hp : parse_token (c :: p) e = some (tok, rest))
    (fuel : Nat) (args : List cstruct_arg) (buf : List Nat) (off : Nat) :
    cstruct_pack_go (fuel + 1) (c :: p) e args buf off =
      if buf.length - off < (tok.size * tok.count) % 2 ^ 64 then (none, buf)
      else
        match cstruct_pack_step tok args buf off with
        | none => (none, buf)
        | some (args2, buf3, off2) => cstruct_pack_go fuel rest tok.endian args2 buf3 off2 := by
  conv_lhs => rw [cstruct_pack_go]
  rw [hp]

/-- Unfolding equation for cstruct_unpack_go once a token has been parsed. -/
theorem cstruct_unpack_go_cons {c : Char} {p : List Char} {e : cstruct_endian}
    {tok : cstruct_token} {rest : List Char} (hp : parse_token (c :: p) e = some (tok, rest))
    (fuel : Nat) (buf : List Nat) (off : Nat) :
    cstruct_unpack_go (fuel + 1) (c :: p) e buf off =
      if buf.length - off < (tok.size * tok.count) % 2 ^ 64 then none
      else
        match cstruct_unpack_go fuel rest tok.endian buf (cstruct_unpack_read tok buf off).2 with
        | none => none
        | some (offEnd, more) => some (offEnd, (cstruct_unpack_read tok buf off).1 ++ more) := by
  conv_lhs => rw [cstruct_unpack_go]
  rw [hp]

/-- Unfolding equation for cstruct_fmt_bytes once a token has been parsed. -/
theorem cstruct_fmt_bytes_cons {c : Char} {p : List Char} {e : cstruct_endian}
    {tok : cstruct_token} {rest : List Char} (hp : parse_token (c :: p) e = some (tok, rest))
    (fuel : Nat) :
    cstruct_fmt_bytes (fuel + 1) (c :: p) e =
      match cstruct_fmt_bytes fuel rest tok.endian with
      | none => none
      | some n => some (tok.size * tok.count + n) := by
  conv_lhs => rw [cstruct_fmt_bytes]
  rw [hp]

/-- A numeric array step with repeat count above 1 and a long enough source
array succeeds and advances by one element width per element (stated for the
int16 little-endian token shape used below). -/
theorem cstruct_pack_step_arr_int16 (cnt : Nat) (vs : List Nat) (args : List cstruct_arg)
    (buf : List Nat) (off : Nat) (h1 : 1 < cnt) (h2 : cnt ≤ vs.length) :
    cstruct_pack_step { type := .int16, endian := .little, size := 2, count := cnt }
        (.arr vs :: args) buf off =
      some (args,
        write_bytes buf off
          (((vs.take cnt).map
            (cstruct_encode_elem
              { type := .int16, endian := .little, size := 2, count := cnt })).flatten),
        off + 2 * cnt) := by
  simp only [cstruct_pack_step]
  rw [if_pos h1, if_pos h2]

/-- C3 counterexample: the claim's bounds condition uses the mathematical
product element_size * repeat_count, but the C check (cstruct.c line 963)
multiplies two size_t values, which wraps mod 2^64.  The repeat count 2^63
passes the parser's decimal-overflow guard (it only rejects counts above
SIZE_MAX), and for the 2-byte type h the product 2 * 2^63 wraps to 0, so on
a 4-byte destination the check passes even though the remaining capacity 4
is far below the mathematical product: the call does not fail before
touching the buffer (in C it proceeds to write out of bounds), returning a
cursor instead of the failure sentinel the claim demands. -/
theorem c3_size_t_wrap_counterexample :
    parse_token
        ['9', '2', '2', '3', '3', '7', '2', '0', '3', '6', '8', '5', '4', '7', '7', '5',
          '8', '0', '8', 'h'] .little =
      some ({ type := .int16, endian := .little, size := 2, count := 2 ^ 63 }, []) ∧
    (List.replicate 4 0xAA).length - 0 < 2 * 2 ^ 63 ∧
    (cstruct_pack_v (List.replicate 4 0xAA)
        ['9', '2', '2', '3', '3', '7', '2', '0', '3', '6', '8', '5', '4', '7', '7', '5',
          '8', '0', '8', 'h']
        [.arr (List.replicate (2 ^ 63) 0)]).1 = some (2 ^ 64) := by
  have hp : parse_token
      ['9', '2', '2', '3', '3', '7', '2', '0', '3', '6', '8', '5', '4', '7', '7', '5',
        '8', '0', '8', 'h'] .little =
      some ({ type := .int16, endian := .little, size := 2, count := 2 ^ 63 }, []) := by
    decide
  refine ⟨hp, by decide, ?_⟩
  show (cstruct_pack_go (19 + 1)
      ['9', '2', '2', '3', '3', '7', '2', '0', '3', '6', '8', '5', '4', '7', '7', '5',
        '8', '0', '8', 'h'] .little
      [.arr (List.replicate (2 ^ 63) 0)] (List.replicate 4 0xAA) 0).1 = some (2 ^ 64)
  rw [cstruct_pack_go_cons hp]
  rw [if_neg (by norm_num)]
  rw [cstruct_pack_step_arr_int16 (2 ^ 63) (List.replicate (2 ^ 63) 0)
    [] (List.replicate 4 0xAA) 0 (by norm_num) (by rw [List.length_replicate])]
  show some (0 + 2 * 2 ^ 63) = some (2 ^ 64)
  norm_num

/-- C3 amended: the engine's per-token bounds check compares the remaining
destination capacity against element_size * repeat_count computed in size_t
arithmetic, i.e. reduced mod 2^64; whenever the remaining capacity is below
that (wrapped) product — which coincides with the mathematical product
whenever it fits in 64 bits — the call fails and the destination buffer is
returned exactly as it was (no byte written for that token); in particular
pack with a 3-byte destination and format "I" fails and writes no byte at
all.  A repeat count so large that the product overflows size_t slips past
the check. -/
theorem c3_bounds_reject :
    (∀ (fuel : Nat) (fmt : List Char) (e : cstruct_endian) (args : List cstruct_arg)
        (buf : List Nat) (off : Nat) (tok : cstruct_token) (rest : List Char),
        parse_token fmt e = some (tok, rest) →
        buf.length - off < (tok.size * tok.count) % 2 ^ 64 →
        cstruct_pack_go fuel fmt e args buf off = (none, buf)) ∧
    cstruct_pack_v (List.replicate 3 0xAA) ['I'] [.val 0x12345678] =
      (none, List.replicate 3 0xAA) := by
  constructor
  · intro fuel fmt e args buf off tok rest hp hlt
    match fmt with
    | [] => rw [parse_token_nil] at hp; exact absurd hp (by simp)
    | c :: p =>
      match fuel with
      | 0 => rfl
      | fuel + 1 => rw [cstruct_pack_go_cons hp, if_pos hlt]
  · rfl

/-- C3 witness: the general bounds rejection applied to the concrete call of
the claim (format "I", capacity 3). -/
theorem c3_bounds_reject_witness :
    cstruct_pack_go 1 ['I'] .little [.val 0x12345678] (List.replicate 3 0xAA) 0 =
      (none, List.replicate 3 0xAA) :=
  c3_bounds_reject.1 1 ['I'] .little [.val 0x12345678] (List.replicate 3 0xAA) 0
    { type := .uint32, endian := .little, size := 4, count := 1 } [] rfl (by decide)

/-- C5 counterexample: the claim predicts that format "I4x"-style strings
ending in endianness markers terminate normally, but pack with format "I<"
returns the failure sentinel (after having written the 4 bytes of the
preceding token), and unpack with the same format fails as well. -/
theorem c5_trailing_endian_counterexample :
    cstruct_pack_v (List.replicate 8 0xAA) ['I', '<'] [.val 0x12345678] =
      (none, [0x78, 0x56, 0x34, 0x12, 0xAA, 0xAA, 0xAA, 0xAA]) ∧
    cstruct_unpack_v (List.replicate 8 0) ['I', '<'] = none := by
  exact ⟨rfl, rfl⟩

/-- C5 amended: a format string that ends with one or more endianness
markers after complete tokens does not terminate normally: once the loop
reaches the trailing markers (a nonempty remainder consisting only of
markers), parse_token consumes them, hits the end of the string, and
reports a parse error, so pack and unpack return the failure sentinel (the
bytes written for the preceding tokens persist in the buffer). -/
theorem c5_trailing_endian_fails :
    ∀ (fuel : Nat) (fmt : List Char) (e : cstruct_endian) (args : List cstruct_arg)
      (buf : List Nat) (off : Nat),
      fmt ≠ [] → (∀ c ∈ fmt, c = '<' ∨ c = '>') →
      cstruct_pack_go fuel fmt e args buf off = (none, buf) ∧
        cstruct_unpack_go fuel fmt e buf off = none := by
  intro fuel fmt e args buf off hne hall
  match fmt with
  | [] => exact absurd rfl hne
  | c :: p =>
    match fuel with
    | 0 => exact ⟨rfl, rfl⟩
    | fuel + 1 =>
      constructor
      · simp only [cstruct_pack_go]
        rw [parse_token_markers _ _ hall]
      · simp only [cstruct_unpack_go]
        rw [parse_token_markers _ _ hall]

/-- C5 witness: the amended failure behavior at the concrete tail "<" that
the pack loop reaches after the complete token of "I<". -/
theorem c5_trailing_endian_fails_witness :
    cstruct_pack_go 1 ['<'] .little [] [0xAA] 4 = (none, [0xAA]) ∧
      cstruct_unpack_go 1 ['<'] .little [0xAA] 4 = none :=
  c5_trailing_endian_fails 1 ['<'] .little [] [0xAA] 4 (by simp) (by simp)

/-- The copy length of cstruct_pack_string is min(strlen, size), written
with the min operator. -/
theorem cstruct_pack_string_eq (s : List Nat) (n : Nat) :
    cstruct_pack_string s n =
      s.take (min s.length n) ++ List.replicate (n - min s.length n) 0 := by
  have h : (if s.length < n then s.length else n) = min s.length n := by
    split <;> omega
  simp [cstruct_pack_string, h]

/-- C7: for every string token of declared width N, pack copies
min(strlen(source), N) bytes of the source, fills the rest of the N-byte
region with zeros, and advances the cursor by exactly N regardless of the
source length; in particular packing "Hi" with format "5s" produces the
bytes 48 69 00 00 00. -/
theorem c7_string_truncate_pad :
    (∀ (fuel : Nat) (fmt : List Char) (e : cstruct_endian) (tok : cstruct_token)
        (rest : List Char) (s : List Nat) (args : List cstruct_arg) (buf : List Nat)
        (off : Nat),
        parse_token fmt e = some (tok, rest) → tok.type = .string →
        ¬ buf.length - off < tok.size * tok.count →
        cstruct_pack_go (fuel + 1) fmt e (.str s :: args) buf off =
          cstruct_pack_go fuel rest tok.endian args
            (write_bytes buf off
              (s.take (min s.length tok.size) ++
                List.replicate (tok.size - min s.length tok.size) 0))
            (off + tok.size)) ∧
    cstruct_pack_v (List.replicate 5 0xAA) ['5', 's'] [.str [0x48, 0x69]] =
      (some 5, [0x48, 0x69, 0, 0, 0]) := by
  constructor
  · intro fuel fmt e tok rest s args buf off hp hty hbound
    have hbound2 : ¬ buf.length - off < (tok.size * tok.count) % 2 ^ 64 := by
      have hm := Nat.mod_le (tok.size * tok.count) (2 ^ 64)
      omega
    match fmt with
    | [] => rw [parse_token_nil] at hp; exact absurd hp (by simp)
    | c :: p =>
      obtain ⟨ty, en, sz, cnt⟩ := tok
      obtain rfl : ty = .string := hty
      rw [cstruct_pack_go_cons hp, if_neg hbound2]
      simp [cstruct_pack_step, cstruct_pack_string_eq]
  · rfl

/-- C7 witness: the general string-token step applied at format "s" with an
empty source string and a 1-byte buffer. -/
theorem c7_string_truncate_pad_witness :
    cstruct_pack_go 1 ['s'] .little [.str []] [7] 0 =
      cstruct_pack_go 0 [] .little []
        (write_bytes [7] 0
          (([] : List Nat).take (min (List.length ([] : List Nat)) 1) ++
            List.replicate (1 - min (List.length ([] : List Nat)) 1) 0)) (0 + 1) :=
  c7_string_truncate_pad.1 0 ['s'] .little
    { type := .string, endian := .little, size := 1, count := 1 } [] [] [] [7] 0
    rfl rfl (by decide)

/-- C8: a padding token advances the cursor by element_size * repeat_count
without reading or writing any destination byte (the buffer is passed
through unchanged); for format "I4xI" with values (1, 2) on a buffer
pre-filled with 0xAA, the four bytes at offsets 4..7 remain 0xAA while
offsets 0..3 and 8..11 receive the packed integers. -/
theorem c8_padding_untouched :
    (∀ (fuel : Nat) (fmt : List Char) (e : cstruct_endian) (tok : cstruct_token)
        (rest : List Char) (args : List cstruct_arg) (buf : List Nat) (off : Nat),
        parse_token fmt e = some (tok, rest) → tok.type = .padding →
        ¬ buf.length - off < tok.size * tok.count →
        cstruct_pack_go (fuel + 1) fmt e args buf off =
          cstruct_pack_go fuel rest tok.endian args buf (off + tok.size * tok.count)) ∧
    cstruct_pack_v (List.replicate 12 0xAA) ['I', '4', 'x', 'I'] [.val 1, .val 2] =
      (some 12, [1, 0, 0, 0, 0xAA, 0xAA, 0xAA, 0xAA, 2, 0, 0, 0]) := by
  constructor
  · intro fuel fmt e tok rest args buf off hp hty hbound
    have hbound2 : ¬ buf.length - off < (tok.size * tok.count) % 2 ^ 64 := by
      have hm := Nat.mod_le (tok.size * tok.count) (2 ^ 64)
      omega
    match fmt with
    | [] => rw [parse_token_nil] at hp; exact absurd hp (by simp)
    | c :: p =>
      obtain ⟨ty, en, sz, cnt⟩ := tok
      obtain rfl : ty = .padding := hty
      rw [cstruct_pack_go_cons hp, if_neg hbound2]
      simp [cstruct_pack_step]
  · rfl

/-- C8 witness: the general padding step applied at format "x" on a 1-byte
buffer, leaving the buffer untouched. -/
theorem c8_padding_untouched_witness :
    cstruct_pack_go 1 ['x'] .little [] [0xAA] 0 =
      cstruct_pack_go 0 [] .little [] [0xAA] (0 + 1 * 1) :=
  c8_padding_untouched.1 0 ['x'] .little
    { type := .padding, endian := .little, size := 1, count := 1 } [] [] [0xAA] 0
    rfl rfl (by decide)

/-- C9 witness: the empty-format behavior at a concrete 1-byte buffer. -/
theorem c9_empty_format_witness :
    cstruct_pack_v [5] [] [] = (some 0, [5]) ∧ cstruct_unpack_v [5] [] = some (0, []) :=
  ⟨c9_empty_format.1 [5] [], c9_empty_format.2 [5]⟩

/-- Locator offset of the first token is 0. -/
theorem cstruct_locator_offset_zero (toks : List cstruct_token) :
    cstruct_locator_offset toks 0 = 0 := by
  simp [cstruct_locator_offset]

/-- Locator offset unfolds one token at a time, adding its element size. -/
theorem cstruct_locator_offset_succ (t : cstruct_token) (ts : List cstruct_token) (k : Nat) :
    cstruct_locator_offset (t :: ts) (k + 1) = t.size + cstruct_locator_offset ts k := by
  simp [cstruct_locator_offset]

/-- The locator loop, started at any offset and token counter, returns the
starting offset of the k-th remaining token, where each token it walks over
advances the offset by its element size only (the repeat count is not
consulted), provided each walked token's element size fits the remaining
buffer. -/
theorem cstruct_get_ptr_go_spec :
    ∀ (fuel : Nat) (fmt : List Char) (e : cstruct_endian) (toks : List cstruct_token)
      (buflen off k cur : Nat),
      cstruct_token_list fuel fmt e = some toks →
      k < toks.length →
      (∀ j, j ≤ k → off + cstruct_locator_offset toks j +
          (toks.getD j { type := .padding, endian := .little, size := 0, count := 0 }).size
            ≤ buflen) →
      cstruct_get_ptr_go fuel fmt e buflen off cur (cur + k) =
        some (off + cstruct_locator_offset toks k) := by
  intro fuel
  induction fuel with
  | zero =>
    intro fmt e toks buflen off k cur htl hk _
    match fmt with
    | [] =>
      obtain rfl : toks = [] := by simpa [cstruct_token_list] using htl.symm
      simp at hk
    | c :: p => exact absurd htl (by simp [cstruct_token_list])
  | succ fuel ih =>
    intro fmt e toks buflen off k cur htl hk hb
    match fmt with
    | [] =>
      obtain rfl : toks = [] := by simpa [cstruct_token_list] using htl.symm
      simp at hk
    | c :: p =>
      rw [cstruct_token_list] at htl
      rcases hp : parse_token (c :: p) e with _ | ⟨tok, rest⟩ <;> rw [hp] at htl
      · exact absurd htl (by simp)
      · replace htl :
            (match cstruct_token_list fuel rest tok.endian with
              | none => none
              | some toks2 => some (tok :: toks2)) = some toks := htl
        rcases ht2 : cstruct_token_list fuel rest tok.endian with _ | toks2 <;>
          rw [ht2] at htl <;> simp at htl
        obtain rfl : toks = tok :: toks2 := htl.symm
        have hb0 := hb 0 (Nat.zero_le k)
        rw [cstruct_locator_offset_zero] at hb0
        simp only [List.getD_cons_zero] at hb0
        simp only [cstruct_get_ptr_go]
        rw [hp]
        show (if buflen - off < tok.size then none
            else if cur = cur + k then some off
            else cstruct_get_ptr_go fuel rest tok.endian buflen (off + tok.size) (cur + 1)
              (cur + k)) =
          some (off + cstruct_locator_offset (tok :: toks2) k)
        rw [if_neg (by omega)]
        match k with
        | 0 =>
          rw [if_pos (by omega)]
          rw [cstruct_locator_offset_zero, Nat.add_zero]
        | k2 + 1 =>
          rw [if_neg (by omega)]
          have : cur + (k2 + 1) = (cur + 1) + k2 := by omega
          rw [this]
          have hrec := ih rest tok.endian toks2 buflen (off + tok.size) k2 (cur + 1) ht2
            (by simpa using hk)
            (by
              intro j hj
              have := hb (j + 1) (by omega)
              rw [cstruct_locator_offset_succ] at this
              simpa [Nat.add_assoc] using this)
          rw [hrec, cstruct_locator_offset_succ]
          congr 1
          omega

/-- C4 counterexample: for format "2HI" (a two-element uint16 array followed
by a uint32) the claim predicts that the token after the array starts at
offset 4 = element_size * repeat_count, but cstruct_get_ptr advances by the
element size only and returns offset 2. -/
theorem c4_locator_counterexample :
    cstruct_get_ptr 8 ['2', 'H', 'I'] 1 = some 2 ∧
      cstruct_get_ptr 8 ['2', 'H', 'I'] 1 ≠ some 4 := by
  exact ⟨rfl, by decide⟩

/-- C4 amended: for every well-formed format string and every index naming
an existing token, cstruct_get_ptr returns the starting byte offset of the
index-th token, counting every token including padding, where each preceding
token advances the offset by its element size only (the repeat count is
ignored, so an array token contributes just one element's width), provided
each walked token's element size fits within the buffer (the locator's
bounds check is against element_size, not element_size * repeat_count as in
the pack/unpack engine); in particular for format "HBI" on a buffer of 7
bytes, index 2 yields offset 3. -/
theorem c4_locator_offsets :
    (∀ (fmt : List Char) (toks : List cstruct_token) (buflen index : Nat),
        cstruct_token_list fmt.length fmt .little = some toks →
        index < toks.length →
        (∀ j, j ≤ index → cstruct_locator_offset toks j +
            (toks.getD j { type := .padding, endian := .little, size := 0, count := 0 }).size
              ≤ buflen) →
        cstruct_get_ptr buflen fmt index = some (cstruct_locator_offset toks index)) ∧
    cstruct_get_ptr 7 ['H', 'B', 'I'] 2 = some 3 := by
  constructor
  · intro fmt toks buflen index htl hk hb
    have h := cstruct_get_ptr_go_spec fmt.length fmt .little toks buflen 0 index 0 htl hk
      (by intro j hj; simpa using hb j hj)
    simpa [cstruct_get_ptr] using h
  · rfl

/-- C4 witness: the amended locator characterization applied to format
"HBI" at index 1 on a 7-byte buffer, giving offset 2. -/
theorem c4_locator_offsets_witness :
    cstruct_get_ptr 7 ['H', 'B', 'I'] 1 = some 2 := by
  have h := c4_locator_offsets.1 ['H', 'B', 'I']
    [{ type := .uint16, endian := .little, size := 2, count := 1 },
     { type := .uint8, endian := .little, size := 1, count := 1 },
     { type := .uint32, endian := .little, size := 4, count := 1 }] 7 1
    (by decide) (by decide) (by decide)
  exact h

/-- A successful pack step advances the cursor by exactly element_size *
repeat_count (string and padding tokens carry repeat count 1, and a scalar
step only fires at repeat count 1). -/
theorem cstruct_pack_step_advance {tok : cstruct_token} {args : List cstruct_arg}
    {buf : List Nat} {off : Nat} {args2 : List cstruct_arg} {buf2 : List Nat} {off2 : Nat}
    (h : cstruct_pack_step tok args buf off = some (args2, buf2, off2))
    (hc1 : 1 ≤ tok.count)
    (hsp : (tok.type = .string ∨ tok.type = .padding) → tok.count = 1) :
    off2 = off + tok.size * tok.count := by
  obtain ⟨ty, en, sz, cnt⟩ := tok
  cases ty <;> simp at hsp <;>
    rcases args with _ | ⟨v | vs | s, args3⟩ <;>
    simp [cstruct_pack_step] at h <;>
    simp_all
  all_goals
    obtain ⟨hh1, hh2, hh3, hh4⟩ := h
    have hce : cnt = 1 := le_antisymm hh1 hc1
    subst hce
    omega

/-- The unpack read of one token advances the cursor by exactly
element_size * repeat_count. -/
theorem cstruct_unpack_read_advance (tok : cstruct_token) (buf : List Nat) (off : Nat)
    (hc1 : 1 ≤ tok.count)
    (hsp : (tok.type = .string ∨ tok.type = .padding) → tok.count = 1) :
    (cstruct_unpack_read tok buf off).2 = off + tok.size * tok.count := by
  obtain ⟨ty, en, sz, cnt⟩ := tok
  cases ty <;> simp at hsp <;>
    simp only [cstruct_unpack_read] <;>
    (try split_ifs with hgt) <;>
    simp_all
  all_goals
    have hce : cnt = 1 := le_antisymm hgt hc1
    subst hce
    simp

/-- When the pack loop succeeds, the returned cursor is the starting offset
plus the total byte footprint of the format string. -/
theorem cstruct_pack_go_bytes :
    ∀ (fuel : Nat) (fmt : List Char) (e : cstruct_endian) (args : List cstruct_arg)
      (buf : List Nat) (off res : Nat) (buf2 : List Nat),
      cstruct_pack_go fuel fmt e args buf off = (some res, buf2) →
      cstruct_fmt_bytes fuel fmt e = some (res - off) ∧ off ≤ res := by
  intro fuel
  induction fuel with
  | zero =>
    intro fmt e args buf off res buf2 h
    match fmt with
    | [] =>
      replace h : ((some off : Option Nat), buf) = (some res, buf2) := h
      simp at h
      obtain ⟨rfl, rfl⟩ := h
      exact ⟨by simp [cstruct_fmt_bytes], le_refl _⟩
    | c :: p =>
      replace h : ((none : Option Nat), buf) = (some res, buf2) := h
      simp at h
  | succ fuel ih =>
    intro fmt e args buf off res buf2 h
    match fmt with
    | [] =>
      replace h : ((some off : Option Nat), buf) = (some res, buf2) := h
      simp at h
      obtain ⟨rfl, rfl⟩ := h
      exact ⟨by simp [cstruct_fmt_bytes], le_refl _⟩
    | c :: p =>
      rcases hp : parse_token (c :: p) e with _ | ⟨tok, rest⟩
      · rw [cstruct_pack_go, hp] at h
        replace h : ((none : Option Nat), buf) = (some res, buf2) := h
        simp at h
      · rw [cstruct_pack_go_cons hp] at h
        split at h
        · simp at h
        · rcases hs : cstruct_pack_step tok args buf off with _ | ⟨args2, buf3, off2⟩ <;>
            rw [hs] at h
          · simp at h
          · obtain ⟨hb, hle⟩ := ih rest tok.endian args2 buf3 off2 res buf2 h
            obtain ⟨hsz, hc1, hsp⟩ := parse_token_spec hp
            have hoff : off2 = off + tok.size * tok.count :=
              cstruct_pack_step_advance hs hc1 hsp
            rw [cstruct_fmt_bytes_cons hp, hb]
            constructor
            · show some (tok.size * tok.count + (res - off2)) = some (res - off)
              congr 1
              omega
            · omega

/-- When the unpack loop succeeds, the returned cursor is the starting
offset plus the total byte footprint of the format string. -/
theorem cstruct_unpack_go_bytes :
    ∀ (fuel : Nat) (fmt : List Char) (e : cstruct_endian) (buf : List Nat) (off res : Nat)
      (outs : List cstruct_out),
      cstruct_unpack_go fuel fmt e buf off = some (res, outs) →
      cstruct_fmt_bytes fuel fmt e = some (res - off) ∧ off ≤ res := by
  intro fuel
  induction fuel with
  | zero =>
    intro fmt e buf off res outs h
    match fmt with
    | [] =>
      replace h : some (off, ([] : List cstruct_out)) = some (res, outs) := h
      simp at h
      obtain ⟨rfl, rfl⟩ := h
      exact ⟨by simp [cstruct_fmt_bytes], le_refl _⟩
    | c :: p =>
      replace h : (none : Option (Nat × List cstruct_out)) = some (res, outs) := h
      simp at h
  | succ fuel ih =>
    intro fmt e buf off res outs h
    match fmt with
    | [] =>
      replace h : some (off, ([] : List cstruct_out)) = some (res, outs) := h
      simp at h
      obtain ⟨rfl, rfl⟩ := h
      exact ⟨by simp [cstruct_fmt_bytes], le_refl _⟩
    | c :: p =>
      rcases hp : parse_token (c :: p) e with _ | ⟨tok, rest⟩
      · rw [cstruct_unpack_go, hp] at h
        replace h : (none : Option (Nat × List cstruct_out)) = some (res, outs) := h
        simp at h
      · rw [cstruct_unpack_go_cons hp] at h
        split at h
        · simp at h
        · rcases hs : cstruct_unpack_go fuel rest tok.endian buf
              (cstruct_unpack_read tok buf off).2 with _ | ⟨res2, more⟩ <;> rw [hs] at h
          · simp at h
          · simp at h
            obtain ⟨rfl, rfl⟩ := h
            obtain ⟨hb, hle⟩ := ih rest tok.endian buf (cstruct_unpack_read tok buf off).2
              res2 more hs
            obtain ⟨hsz, hc1, hsp⟩ := parse_token_spec hp
            have hoff := cstruct_unpack_read_advance tok buf off hc1 hsp
            rw [hoff] at hb hle
            rw [cstruct_fmt_bytes_cons hp, hb]
            constructor
            · show some (tok.size * tok.count + (res2 - (off + tok.size * tok.count))) =
                some (res2 - off)
              congr 1
              omega
            · omega

/-- C10: for every format string on which pack and unpack both succeed, the
two calls advance their cursors by exactly the same number of bytes: the
offset of pack's returned end pointer from the destination start equals the
offset of unpack's returned end pointer from the source start, and both
equal the total over all tokens of element_size * repeat_count. -/
theorem c10_pack_unpack_advance :
    ∀ (fmt : List Char) (args : List cstruct_arg) (dbuf dbuf2 : List Nat) (p : Nat)
      (sbuf : List Nat) (u : Nat) (outs : List cstruct_out),
      cstruct_pack_v dbuf fmt args = (some p, dbuf2) →
      cstruct_unpack_v sbuf fmt = some (u, outs) →
      p = u ∧ cstruct_fmt_bytes fmt.length fmt .little = some p := by
  intro fmt args dbuf dbuf2 p sbuf u outs hpk hup
  obtain ⟨hb1, _⟩ := cstruct_pack_go_bytes fmt.length fmt .little args dbuf 0 p dbuf2 hpk
  obtain ⟨hb2, _⟩ := cstruct_unpack_go_bytes fmt.length fmt .little sbuf 0 u outs hup
  rw [Nat.sub_zero] at hb1 hb2
  rw [hb1] at hb2
  exact ⟨Option.some.inj hb2, hb1⟩

/-- C10 witness: pack and unpack of format "H" both advance by 2 bytes. -/
theorem c10_pack_unpack_advance_witness :
    (2 : Nat) = 2 ∧ cstruct_fmt_bytes (['H'] : List Char).length ['H'] .little = some 2 :=
  c10_pack_unpack_advance ['H'] [.val 0] (List.replicate 2 0) [0, 0] 2
    [0, 0] 2 [.val 0] rfl rfl

/-- Masking with a single power of two extracts that bit as a value. -/
theorem nat_and_two_pow (x i : Nat) : x &&& 2 ^ i = x / 2 ^ i % 2 * 2 ^ i := by
  rcases Nat.mod_two_eq_zero_or_one (x / 2 ^ i) with h | h
  · rw [h, Nat.zero_mul]
    apply Nat.eq_of_testBit_eq
    intro j
    simp only [Nat.testBit_and, Nat.testBit_two_pow, Nat.zero_testBit]
    by_cases hij : i = j
    · subst hij
      have hx : x.testBit i = false := by
        rw [Nat.testBit_to_div_mod]
        simp [h]
      simp [hx]
    · simp [hij]
  · rw [h, Nat.one_mul]
    apply Nat.eq_of_testBit_eq
    intro j
    simp only [Nat.testBit_and, Nat.testBit_two_pow]
    by_cases hij : i = j
    · subst hij
      have hx : x.testBit i = true := by
        rw [Nat.testBit_to_div_mod]
        simp [h]
      simp [hx]
    · simp [hij]

/-- C6 counterexample: the input 0x7F800001 is a binary32 NaN (exponent
field all-ones, mantissa nonzero), but cstruct_float_to_half maps it to
0x7C00, the binary16 infinity pattern (mantissa field zero), not to a NaN:
the payload sits entirely in the low 13 mantissa bits, which are dropped. -/
theorem c6_nan_payload_counterexample :
    ((0x7F800001 : Nat) >>> 23) &&& 0xFF = 0xFF ∧ (0x7F800001 : Nat) &&& 0x7FFFFF ≠ 0 ∧
      cstruct_float_to_half 0x7F800001 = 0x7C00 ∧ (0x7C00 : Nat) &&& 0x3FF = 0 := by
  refine ⟨by decide, by decide, by decide, by decide⟩

/-- C6 amended: for every binary32 input with exponent field all-ones
(written s * 2^31 + 0x7F800000 + m with sign bit s and 23-bit mantissa m),
cstruct_float_to_half returns s * 0x8000 + 0x7C00 + (m >> 13): the sign bit
is preserved, the 5-bit exponent field is all-ones, and the top 10 mantissa
bits are preserved in the 10-bit field.  The result is a binary16 NaN
exactly when the top 10 mantissa bits are nonzero; a NaN whose payload lies
only in the low 13 bits collapses to the signed infinity, and a zero
mantissa (infinity input) gives the signed infinity as a special case of
the same formula. -/
theorem c6_float_to_half_exp_all_ones (s m : Nat) (hs : s < 2) (hm : m < 0x800000) :
    cstruct_float_to_half (s * 0x80000000 + 0x7F800000 + m) =
      s * 0x8000 + 0x7C00 + m / 0x2000 := by
  have hfield : ((s * 0x80000000 + 0x7F800000 + m) >>> 23) &&& 0xFF = 255 := by
    rw [Nat.shiftRight_eq_div_pow,
      show (0xFF : Nat) = 2 ^ 8 - 1 by norm_num, Nat.and_pow_two_sub_one_eq_mod]
    have h23 : (s * 0x80000000 + 0x7F800000 + m) / 2 ^ 23 = s * 256 + 255 := by omega
    rw [h23]
    omega
  have hsign : ((s * 0x80000000 + 0x7F800000 + m) >>> 16) &&& 0x8000 = s * 0x8000 := by
    rw [Nat.shiftRight_eq_div_pow,
      show (0x8000 : Nat) = 2 ^ 15 by norm_num, nat_and_two_pow]
    have h16 : (s * 0x80000000 + 0x7F800000 + m) / 2 ^ 16 =
        s * 32768 + 32640 + m / 65536 := by omega
    rw [h16]
    have hk : m / 65536 < 128 := by omega
    omega
  have hmant : (s * 0x80000000 + 0x7F800000 + m) &&& 0x7FFFFF = m := by
    rw [show (0x7FFFFF : Nat) = 2 ^ 23 - 1 by norm_num, Nat.and_pow_two_sub_one_eq_mod]
    omega
  have hfrac : ((s * 0x80000000 + 0x7F800000 + m) >>> 13) &&& 0x3FF = m / 0x2000 := by
    rw [Nat.shiftRight_eq_div_pow,
      show (0x3FF : Nat) = 2 ^ 10 - 1 by norm_num, Nat.and_pow_two_sub_one_eq_mod]
    have h13 : (s * 0x80000000 + 0x7F800000 + m) / 2 ^ 13 =
        s * 262144 + 261120 + m / 8192 := by omega
    rw [h13]
    have hk : m / 8192 < 1024 := by omega
    omega
  have hd : m / 0x2000 < 2 ^ 10 := by omega
  simp only [cstruct_float_to_half]
  rw [hfield, hsign, hmant, hfrac]
  norm_num
  interval_cases s
  · simp only [Nat.zero_mul, Nat.zero_or, Nat.zero_add]
    by_cases hm0 : m = 0
    · subst hm0
      decide
    · rw [if_neg hm0]
      rw [show (0x7C00 : Nat) = 2 ^ 10 * 31 by norm_num]
      exact (Nat.mul_add_lt_is_or hd 31).symm
  · by_cases hm0 : m = 0
    · subst hm0
      decide
    · rw [if_neg hm0]
      rw [show (1 * 0x8000 : Nat) ||| 0x7C00 = 2 ^ 10 * 63 by decide]
      rw [show (1 * 0x8000 + 0x7C00 : Nat) = 2 ^ 10 * 63 by norm_num]
      exact (Nat.mul_add_lt_is_or hd 63).symm

/-- C6 witness: the amended formula applied to the negative quiet NaN
pattern 0xFFC00000 (sign 1, mantissa 0x400000). -/
theorem c6_float_to_half_exp_all_ones_witness :
    cstruct_float_to_half (1 * 0x80000000 + 0x7F800000 + 0x400000) =
      1 * 0x8000 + 0x7C00 + 0x400000 / 0x2000 :=
  c6_float_to_half_exp_all_ones 1 0x400000 (by norm_num) (by norm_num)

end CStruct
